import Mathlib

/-!
Verification development for `scraper1.py` (tender_scraper).

The Python source is shallowly embedded below.  HTML pages are abstracted to
the data the BeautifulSoup queries in the source would deliver (tables, rows,
cells, label/sibling text), strings are modelled as Lean `String`s with
hand-rolled, kernel-reducible counterparts of the Python string methods the
source uses, and the MongoDB collection / email body / saved-file side effects
of the `__main__` loop are modelled as explicit state threaded through a fold,
together with an event trace recording the order of the dedup check, the dedup
insert and the digest appends.
-/

set_option exponentiation.threshold 2000

set_option maxRecDepth 16000

/-! ## Python string primitives used by the source -/

/-- Whitespace test of Python `str.strip()` (the characters it removes). -/
def isSpaceChar (c : Char) : Bool :=
  c == ' ' || c == '\t' || c == '\n' || c == '\r' || c == '\x0b' || c == '\x0c'

/-- Remove leading and trailing whitespace from a character list. -/
def stripChars (l : List Char) : List Char :=
  (((l.dropWhile isSpaceChar).reverse).dropWhile isSpaceChar).reverse

/-- Python `s.strip()`; also models `get_text(strip=True)` on a cell's text. -/
def pyStrip (s : String) : String := String.mk (stripChars s.toList)

/-- Python `s.replace(c, "")` for a one-character pattern: drop every occurrence. -/
def removeChar (c : Char) (s : String) : String :=
  String.mk (s.toList.filter (fun a => a != c))

/-- ASCII digit test (`'0'` to `'9'`, code points 48 to 57). -/
def isDigitChar (c : Char) : Bool := decide (48 ≤ c.toNat) && decide (c.toNat ≤ 57)

/-- ASCII uppercase map of one character (Python `str.upper()` on ASCII input,
which is all the source compares: `clean_text.upper() == "NA"`). -/
def upperChar (c : Char) : Char :=
  if 97 ≤ c.toNat ∧ c.toNat ≤ 122 then Char.ofNat (c.toNat - 32) else c

/-- Python `s.upper()` (ASCII). -/
def pyUpper (s : String) : String := String.mk (s.toList.map upperChar)

/-- Does `needle` occur at the head of the second list? -/
def startsWithChars : List Char → List Char → Bool
  | [], _ => true
  | _ :: _, [] => false
  | a :: as, b :: bs => a == b && startsWithChars as bs

/-- Does `needle` occur anywhere in the list? -/
def hasSubChars (needle : List Char) : List Char → Bool
  | [] => startsWithChars needle []
  | c :: cs => startsWithChars needle (c :: cs) || hasSubChars needle cs

/-- Python `needle in hay` on strings. -/
def containsSub (hay needle : String) : Bool := hasSubChars needle.toList hay.toList

/-- Number of (possibly overlapping) occurrences of `needle`. -/
def countOccurChars (needle : List Char) : List Char → Nat
  | [] => 0
  | c :: cs => (if startsWithChars needle (c :: cs) then 1 else 0) + countOccurChars needle cs

/-- Number of occurrences of `needle` in `hay`. -/
def countOccur (hay needle : String) : Nat := countOccurChars needle.toList hay.toList

/-- One step of Python `str.title()`: uppercase a letter that starts a word,
lowercase the rest; the flag records whether the previous char was a letter. -/
def pyTitleGo : Bool → List Char → List Char
  | _, [] => []
  | prevAlpha, c :: cs =>
    if c.isAlpha then
      (if prevAlpha then c.toLower else c.toUpper) :: pyTitleGo true cs
    else
      c :: pyTitleGo false cs

/-- Python `s.title()` (ASCII words, as in the date labels of the source). -/
def pyTitle (s : String) : String := String.mk (pyTitleGo false s.toList)

/-- Python `s.replace('_', ' ')` from line 372 of the source. -/
def underscoreToSpace (s : String) : String :=
  String.mk (s.toList.map (fun c => if c = '_' then ' ' else c))

/-! ## Numeric normalization (`get_tender_value`, lines 241-250) -/

/-- Line 242 of the source:
`value_text.replace(",", "").replace("₹", "").strip()`. -/
def cleanValueText (s : String) : String := pyStrip (removeChar '₹' (removeChar ',' s))

/-- Decimal value of a digit list (most significant first). -/
def digitsVal : List Char → Nat → Nat
  | [], acc => acc
  | c :: cs, acc => digitsVal cs (10 * acc + (c.toNat - 48))

/-- A parsed plain decimal numeral: sign, integer part, and the fraction as
`fnum / 10 ^ flen`.  This represents the Python `float` exactly. -/
structure PyNum where
  neg : Bool
  ip : Nat
  fnum : Nat
  flen : Nat
deriving DecidableEq

/-- Digits before the decimal point. -/
def intPartOf (l : List Char) : List Char := l.takeWhile (fun c => c != '.')

/-- Parse an unsigned plain decimal numeral: digits with at most one decimal
point and at least one digit in total. -/
def parseNumeralCore (l : List Char) : Option PyNum :=
  match l.dropWhile (fun c => c != '.') with
  | [] =>
      if intPartOf l ≠ [] ∧ (intPartOf l).all isDigitChar then
        some ⟨false, digitsVal (intPartOf l) 0, 0, 0⟩
      else none
  | _ :: fpart =>
      if (intPartOf l ++ fpart) ≠ [] ∧ (intPartOf l ++ fpart).all isDigitChar ∧
          fpart.all (fun c => c != '.') then
        some ⟨false, digitsVal (intPartOf l) 0, digitsVal fpart 0, fpart.length⟩
      else none

/-- Model of Python `float(s)` on plain decimal numerals (optional sign, digits,
one optional decimal point), the format the portal's value cell carries after
cleaning.  Any other token fails, which in the source raises `ValueError`
(line 268). -/
def pyFloatParse (s : String) : Option PyNum :=
  match s.toList with
  | [] => none
  | c :: rest =>
    if c = '-' then (parseNumeralCore rest).map (fun n => { n with neg := true })
    else if c = '+' then parseNumeralCore rest
    else parseNumeralCore (c :: rest)

/-- Fuelled base-two logarithm (structural, so the kernel can evaluate it). -/
def log2Fuel : Nat → Nat → Nat
  | 0, _ => 0
  | fuel + 1, n => if 2 ≤ n then log2Fuel fuel (n / 2) + 1 else 0

/-- Base-two logarithm of a natural number (floor, 0 at 0). -/
def natLog2 (n : Nat) : Nat := log2Fuel n n

/-- Two to an integer power, as a rational (used only in statements). -/
def pow2 (k : Int) : ℚ :=
  if 0 ≤ k then ((2 : ℚ) ^ k.toNat) else 1 / (2 : ℚ) ^ (-k).toNat

/-- Is 2^c ≤ N / D (for positive naturals N, D)?  A pure integer comparison,
so the kernel can evaluate it. -/
def pow2LeFrac (c : Int) (N D : Nat) : Bool :=
  if 0 ≤ c then decide (D * 2 ^ c.toNat ≤ N) else decide (D ≤ N * 2 ^ (-c).toNat)

/-- The exact base-two floor-logarithm of N / D: a candidate from the
numerator/denominator logs (always within one of the true value), corrected
by direct comparison. -/
def floorLog2Frac (N D : Nat) : Int :=
  if pow2LeFrac ((natLog2 N : Int) - (natLog2 D : Int) + 2) N D then
    (natLog2 N : Int) - (natLog2 D : Int) + 2
  else if pow2LeFrac ((natLog2 N : Int) - (natLog2 D : Int) + 1) N D then
    (natLog2 N : Int) - (natLog2 D : Int) + 1
  else if pow2LeFrac ((natLog2 N : Int) - (natLog2 D : Int)) N D then
    (natLog2 N : Int) - (natLog2 D : Int)
  else if pow2LeFrac ((natLog2 N : Int) - (natLog2 D : Int) - 1) N D then
    (natLog2 N : Int) - (natLog2 D : Int) - 1
  else
    (natLog2 N : Int) - (natLog2 D : Int) - 2

/-- Round P / Q to the nearest integer, ties to even (P, Q naturals). -/
def roundHalfEvenFrac (P Q : Nat) : Nat :=
  if 2 * (P % Q) < Q then P / Q
  else if Q < 2 * (P % Q) then P / Q + 1
  else if P / Q % 2 = 0 then P / Q else P / Q + 1

/-- Round (N / D) * 2^(-k) to the nearest integer, ties to even. -/
def roundSigFrac (N D : Nat) (k : Int) : Nat :=
  if 0 ≤ k then roundHalfEvenFrac N (D * 2 ^ k.toNat)
  else roundHalfEvenFrac (N * 2 ^ (-k).toNat) D

/-- Does m * 2^k reach 2^1024, the binary64 overflow bound? -/
def dblOverflow (m : Nat) (k : Int) : Bool :=
  if 0 ≤ k then decide (2 ^ 1024 ≤ m * 2 ^ k.toNat)
  else decide (2 ^ (1024 + (-k).toNat) ≤ m)

/-- An IEEE-754 binary64 value: sign, significand and binary exponent; the
value held is (-1)^neg * m * 2^k. -/
structure Dbl where
  neg : Bool
  m : Nat
  k : Int
deriving DecidableEq

/-- The exact rational value the double holds (used only in statements). -/
def Dbl.toRat (d : Dbl) : ℚ := (if d.neg then -1 else 1) * (d.m : ℚ) * pow2 d.k

/-- Numerator of the magnitude of a parsed numeral (over `pyNumD`). -/
def pyNumN (n : PyNum) : Nat := n.ip * 10 ^ n.flen + n.fnum

/-- Denominator of the magnitude of a parsed numeral. -/
def pyNumD (n : PyNum) : Nat := 10 ^ n.flen

/-- Round a parsed decimal numeral to the nearest IEEE binary64 value (round
to nearest, ties to even, 53-bit significand, subnormal quantum 2^-1074) —
the value CPython float() yields on the string — or none when the magnitude
rounds to infinity. -/
def roundToDouble (n : PyNum) : Option Dbl :=
  if pyNumN n = 0 then some ⟨false, 0, 0⟩
  else
    if dblOverflow
        (roundSigFrac (pyNumN n) (pyNumD n)
          (max (floorLog2Frac (pyNumN n) (pyNumD n) - 52) (-1074)))
        (max (floorLog2Frac (pyNumN n) (pyNumD n) - 52) (-1074)) then
      none
    else
      some
        ⟨n.neg,
         roundSigFrac (pyNumN n) (pyNumD n)
           (max (floorLog2Frac (pyNumN n) (pyNumD n) - 52) (-1074)),
         max (floorLog2Frac (pyNumN n) (pyNumD n) - 52) (-1074)⟩

/-- Python int() on a double value: truncation toward zero. -/
def Dbl.truncZ (d : Dbl) : Int :=
  if 0 ≤ d.k then
    (if d.neg then -1 else 1) * ((d.m * 2 ^ d.k.toNat : Nat) : Int)
  else
    (if d.neg then -1 else 1) * ((d.m / 2 ^ (-d.k).toNat : Nat) : Int)

/-- `int(float(s))` on the parsed numeral: the decimal value is rounded to
the nearest double and that double truncated toward zero.  `none` is the
overflow case (CPython: `float()` returns infinity and `int()` then raises
an uncaught `OverflowError`, aborting the run — line 268 catches only
`ValueError`; the model folds it into the failure marker, and the theorems
that use the value path carry a finite-rounding hypothesis keeping that case
out of scope). -/
def pyIntFloat (n : PyNum) : Option Int := (roundToDouble n).map Dbl.truncZ

/-! ## Tender detail extraction (`get_tender_value` and its helpers) -/

/-- The eight named date fields of `get_tender_dates` (label, extracted text). -/
abbrev TenderDates := List (String × Option String)

/-- A tender detail page, abstracted to what the BeautifulSoup lookups of the
source deliver on it: `valueCellText` is the stripped text of the sibling of
the cell containing "Tender Value in ₹" (`none` when the label cell or its
sibling is missing, lines 237-240); `idChain` is the pair extracted by
`get_tender_id_organization_chain` (`none, none` on any failure there);
`tenderType` is `extract_value(soup, "Tender Type")`; `dates` is
`get_tender_dates`. -/
structure DetailPage where
  valueCellText : Option String
  idChain : Option (String × String)
  tenderType : Option String
  dates : TenderDates
deriving DecidableEq

/-- The dictionary returned by `get_tender_value` in the below-threshold
branch (lines 256-262). -/
structure TenderRecord where
  tender_id : Option String
  tender_value : Option Int
  tender_organization_chain : Option String
  tender_type : Option String
  tender_dates : TenderDates
deriving DecidableEq

/-- The three shapes `get_tender_value` can return: Python `None`
(unparsable), the sentinel dictionary with `tender_id = "SKIP"`, and the full
record. -/
inductive TenderResult where
  | unparsable
  | skip
  | keep (r : TenderRecord)
deriving DecidableEq

/-- The record built in the keep branch of `get_tender_value`. -/
def mkKeepRecord (p : DetailPage) (v : Option Int) : TenderRecord :=
  { tender_id := p.idChain.map Prod.fst
    tender_value := v
    tender_organization_chain := p.idChain.map Prod.snd
    tender_type := p.tenderType
    tender_dates := p.dates }

/-- Lines 241-250 of `get_tender_value`: the numeric-or-null tender value of a
cell text, `some none` for the "NA"/empty null-value state, `some (some v)`
for `int(float(...))`, and `none` for the `ValueError` branch. -/
def parsedValueOfText (value_text : String) : Option (Option Int) :=
  if pyUpper (cleanValueText value_text) = "NA" ∨ cleanValueText value_text = "" then
    some none
  else
    match pyFloatParse (cleanValueText value_text) with
    | none => none
    | some n =>
      match pyIntFloat n with
      | none => none
      | some v => some (some v)

/-- `get_tender_value` (lines 229-272): clean the value cell text and parse it
(`parsedValueOfText`); a failed conversion is the `ValueError` branch
returning `None` (unparsable); then line 252's `tender_value is None or
tender_value < 3000000` decides between the full record and the SKIP
sentinel; a missing value cell yields `None` (line 272). -/
def get_tender_value (p : DetailPage) : TenderResult :=
  match p.valueCellText with
  | none => .unparsable
  | some value_text =>
    match parsedValueOfText value_text with
    | none => .unparsable
    | some none => .keep (mkKeepRecord p none)
    | some (some v) =>
        if v < 3000000 then .keep (mkKeepRecord p (some v))
        else .skip

/-- The numeric-or-null tender value computed inside `get_tender_value`,
`none` when that computation fails (missing cell or `ValueError`). -/
def parsedTenderValue (p : DetailPage) : Option (Option Int) :=
  match p.valueCellText with
  | none => none
  | some value_text => parsedValueOfText value_text

/-! ## Table extractors (`get_department_table`, `extract_department_link`,
`get_tender_links_from_org_page`) -/

/-- A table cell: its raw text content and the `href` of the first `<a>` tag
inside it, when one with an `href` attribute is present. -/
structure Cell where
  text : String
  href : Option String
deriving DecidableEq

/-- A table row. -/
structure Row where
  cells : List Cell
deriving DecidableEq

/-- A table. -/
structure Table where
  rows : List Row
deriving DecidableEq

/-- A fetched HTML page, abstracted to the tables of class "list_table"
BeautifulSoup would find on it, in document order. -/
structure Page where
  listTables : List Table
deriving DecidableEq

/-- Line 41 of the source. -/
def BASE_URL : String := "https://eproc.rajasthan.gov.in"

/-- `get_department_table` (lines 100-111): the third "list_table" table, or
`None` when there are fewer than three. -/
def get_department_table (p : Page) : Option Table :=
  if p.listTables.length < 3 then none else p.listTables[2]?

/-- Row scan of `extract_department_link` (lines 118-129): skip rows with
fewer than three cells; on an exact match of the stripped second-cell text
against the department name, return `BASE_URL` plus the stripped href of the
first anchor of the third cell; a matching row without such an anchor is
passed over and the scan continues. -/
def extract_department_link_rows (deptName : String) : List Row → Option String
  | [] => none
  | r :: rs =>
    match r.cells with
    | _ :: c1 :: c2 :: _ =>
      if pyStrip c1.text = deptName then
        match c2.href with
        | some h => some (BASE_URL ++ pyStrip h)
        | none => extract_department_link_rows deptName rs
      else extract_department_link_rows deptName rs
    | _ => extract_department_link_rows deptName rs

/-- `extract_department_link` (lines 113-131). -/
def extract_department_link (t : Table) (deptName : String) : Option String :=
  extract_department_link_rows deptName t.rows

/-- Lines 55-57: each configured department name is whitespace-stripped before
use, so resolving a configured name means matching its stripped form. -/
def resolveDepartment (t : Table) (configName : String) : Option String :=
  extract_department_link t (pyStrip configName)

/-- Link collection of `get_tender_links_from_org_page` (lines 142-150): rows
with at least five cells contribute the href of the first anchor of the fifth
cell. -/
def collectTenderLinks : List Row → List String
  | [] => []
  | r :: rs =>
    match r.cells with
    | _ :: _ :: _ :: _ :: c4 :: _ =>
      match c4.href with
      | some h => (BASE_URL ++ pyStrip h) :: collectTenderLinks rs
      | none => collectTenderLinks rs
    | _ => collectTenderLinks rs

/-- `get_tender_links_from_org_page` (lines 133-152).  Line 140 indexes
`soup.find_all("table", class_="list_table")[0]` without any guard, so an
organisation page with no such table raises `IndexError`, modelled as
`Except.error ()`. -/
def get_tender_links_from_org_page (p : Page) : Except Unit (List String) :=
  match p.listTables with
  | [] => .error ()
  | t :: _ => .ok (collectTenderLinks t.rows)

/-! ## Fetcher (`fetch_page`, lines 59-78) -/

/-- An HTTP response: `ok` is whether `raise_for_status` passes (2xx), `body`
is `response.text`. -/
structure HttpResponse where
  ok : Bool
  body : String
deriving DecidableEq

/-- The requests `fetch_page` can issue: a GET of the target URL or a GET of
the session-restart endpoint. -/
inductive FetchStep where
  | getPage
  | getRestart
deriving DecidableEq

/-- Line 68 of the source: the session-expiry marker test on the body. -/
def sessionExpired (body : String) : Bool :=
  containsSub body "Your session has timed out"

/-- `fetch_page` against a network that answers the i-th request issued during
this call with `net i` (`none` models a transport-level `RequestException`).
Returns the result of the call (`none` is the `except` branch returning
Python `None`) paired with the trace of requests issued: a first GET; when its
body carries the expiry marker, one restart GET and one retried GET.  The
retried response's body is returned as long as its status is 2xx — it is not
re-checked for the expiry marker. -/
def fetch_page (net : Nat → Option HttpResponse) : Option String × List FetchStep :=
  match net 0 with
  | none => (none, [.getPage])
  | some r1 =>
    if r1.ok = false then (none, [.getPage])
    else if sessionExpired r1.body then
      match net 1 with
      | none => (none, [.getPage, .getRestart])
      | some _ =>
        match net 2 with
        | none => (none, [.getPage, .getRestart, .getPage])
        | some r2 =>
          if r2.ok = false then (none, [.getPage, .getRestart, .getPage])
          else (some r2.body, [.getPage, .getRestart, .getPage])
    else (some r1.body, [.getPage])

/-! ## Orchestrator (`__main__`, lines 299-381) -/

/-- Mutable state of the main loop: `seen` is the set of tender_ids in the
MongoDB collection (insertion order), `body` is `email_body`, `count` the
per-department new-tender counter, `saved` the tender URLs whose raw HTML
`save_failed_html` persisted. -/
structure ScraperState where
  seen : List String
  body : String
  count : Nat
  saved : List String
deriving DecidableEq

/-- Observable per-tender effects, in the order they happen in the source:
the `find_one` dedup check, the `insert_one` dedup insert, the reported digest
fragment append, the failure-line append, and the raw-page save. -/
inductive Event where
  | seenCheck (tid : String) (wasSeen : Bool)
  | insertSeen (tid : String)
  | appendFragment (tid : String)
  | appendFailLine (url : String)
  | savePage (url : String)
deriving DecidableEq

/-- Python `str(x)` on the optional strings interpolated into the digest. -/
def pyShowOptStr : Option String → String
  | none => "None"
  | some s => s

/-- Python `str(x)` on the optional tender value interpolated into the digest. -/
def pyShowOptInt : Option Int → String
  | none => "None"
  | some v => toString v

/-- Lines 369-373: one line per truthy date value, with the label
underscore-replaced and title-cased. -/
def datesLines : TenderDates → String
  | [] => ""
  | (label, v) :: rest =>
    (match v with
     | some s => if s = "" then "" else pyTitle (underscoreToSpace label) ++ ": " ++ s ++ "<br>"
     | none => "") ++ datesLines rest

/-- Line 317. -/
def deptHeader (dept : String) : String := "<h2>Department: " ++ dept ++ "</h2>"

/-- Line 328. -/
def totalLine (n : Nat) : String := "<p>Found " ++ toString n ++ " total tenders.</p>"

/-- Line 376, spelled exactly as the source spells it ("Fount"). -/
def deptCountLine (n : Nat) (dept : String) : String :=
  "Fount " ++ toString n ++ " new tenders for " ++ dept ++ "<br>"

/-- Line 339. -/
def failDetailLine (url : String) : String :=
  "<p>Failed to fetch tender details for <a href='" ++ url ++ "'>" ++ url ++ "</a></p>"

/-- Lines 360-375: the digest fragment for a reported tender. -/
def tenderFragment (url : String) (r : TenderRecord) : String :=
  "<p><a href='" ++ url ++ "'>Tender URL</a><br>"
    ++ "Tender ID: " ++ pyShowOptStr r.tender_id ++ "<br>"
    ++ "Tender Value in ₹: " ++ pyShowOptInt r.tender_value ++ "<br>"
    ++ "Tender Type: " ++ pyShowOptStr r.tender_type ++ "<br>"
    ++ "Organization Chain: " ++ pyShowOptStr r.tender_organization_chain ++ "<br>"
    ++ "<b>Critical Dates:</b><br>"
    ++ datesLines r.tender_dates
    ++ "</p><hr>"

/-- The per-tender body of the inner loop (lines 330-375).  `fetchDetail`
composes `fetch_page` on a tender URL with the detail-page parse: `none` is a
fetch failure.  Returns the new state and the trace of observable events. -/
def processTender (fetchDetail : String → Option DetailPage) (st : ScraperState)
    (url : String) : ScraperState × List Event :=
  match fetchDetail url with
  | none => (st, [])
  | some page =>
    match get_tender_value page with
    | .unparsable =>
        ({ st with saved := st.saved ++ [url], body := st.body ++ failDetailLine url },
         [.savePage url, .appendFailLine url])
    | .skip => (st, [])
    | .keep r =>
        match r.tender_id with
        | none => (st, [])
        | some tid =>
          if tid = "" then (st, [])
          else if tid ∈ st.seen then (st, [.seenCheck tid true])
          else
            ({ st with count := st.count + 1
                       seen := st.seen ++ [tid]
                       body := st.body ++ tenderFragment url r },
             [.seenCheck tid false, .insertSeen tid, .appendFragment tid])

/-- The inner loop over the tender links of one department. -/
def runTenders (fetchDetail : String → Option DetailPage) (st : ScraperState) :
    List String → ScraperState × List Event
  | [] => (st, [])
  | url :: urls =>
    let step := processTender fetchDetail st url
    let rest := runTenders fetchDetail step.1 urls
    (rest.1, step.2 ++ rest.2)

/-- The pages the run can reach: organisation pages and tender detail pages by
URL, each `none` on a fetch failure (`fetch_page` returning `None`). -/
structure World where
  orgPage : String → Option Page
  detailPage : String → Option DetailPage

/-- The per-department body of the outer loop (lines 313-376): reset the
counter, append the header, resolve the department link, fetch the
organisation page, extract the tender links (an `IndexError` there is not
caught and aborts the whole run), process each tender, then append the
per-department counter line. -/
def processDepartment (w : World) (table : Table) (st0 : ScraperState) (dept : String) :
    Except Unit (ScraperState × List Event) :=
  let st := { st0 with count := 0, body := st0.body ++ deptHeader dept }
  match extract_department_link table dept with
  | none => .ok ({ st with body := st.body ++ "<p>Not found or no link available.</p>" }, [])
  | some link =>
    match w.orgPage link with
    | none => .ok ({ st with body := st.body ++ "<p>Failed to fetch organisation page.</p>" }, [])
    | some org =>
      match get_tender_links_from_org_page org with
      | .error e => .error e
      | .ok links =>
        let st1 := { st with body := st.body ++ totalLine links.length }
        let res := runTenders w.detailPage st1 links
        .ok ({ res.1 with body := res.1.body ++ deptCountLine res.1.count dept }, res.2)

/-- The outer loop over the configured departments. -/
def runDepartments (w : World) (table : Table) (st : ScraperState) :
    List String → Except Unit (ScraperState × List Event)
  | [] => .ok (st, [])
  | d :: ds =>
    match processDepartment w table st d with
    | .error e => .error e
    | .ok (st2, ev) =>
      match runDepartments w table st2 ds with
      | .error e => .error e
      | .ok (st3, ev2) => .ok (st3, ev ++ ev2)

/-- Line 301: the state at the start of a run, with the dedup log carried over
from previous runs. -/
def initState (seen : List String) : ScraperState :=
  { seen := seen, body := "<html><body>", count := 0, saved := [] }

/-- Occurrences of `insertSeen tid` in an event trace. -/
def countInsert (tid : String) : List Event → Nat
  | [] => 0
  | .insertSeen t :: es => (if t = tid then 1 else 0) + countInsert tid es
  | _ :: es => countInsert tid es

/-- A row of the department table matching a name: at least three cells, the
stripped second-cell text equal to the name, and an anchor href in the third
cell. -/
def rowMatches (deptName : String) (r : Row) : Prop :=
  ∃ c0 c1 c2 rest, r.cells = c0 :: c1 :: c2 :: rest ∧
    pyStrip c1.text = deptName ∧ ∃ h, c2.href = some h

/-- Occurrences of one request kind in a fetch trace. -/
def countStep (s : FetchStep) : List FetchStep → Nat
  | [] => 0
  | t :: ts => (if t = s then 1 else 0) + countStep s ts

/-! ## Concrete fixtures used by witnesses and counterexamples -/

/-- A detail page whose value cell carries the given text. -/
def detailPageWith (s : String) : DetailPage :=
  { valueCellText := some s, idChain := some ("T1", "Org"), tenderType := some "Open",
    dates := [] }

/-- The eight date fields of `get_tender_dates`, none found. -/
def defaultDates : TenderDates :=
  [("published_date", none), ("sale_start_date", none), ("clarification_start_date", none),
   ("bid_submission_start_date", none), ("bid_opening_date", none), ("sale_end_date", none),
   ("clarification_end_date", none), ("bid_submission_end_date", none)]

/-- A text-only cell. -/
def cellT (s : String) : Cell := { text := s, href := none }

/-- A cell carrying an anchor. -/
def cellL (s h : String) : Cell := { text := s, href := some h }

/-- A directory table listing the Public Works Department. -/
def pwdTable : Table :=
  { rows := [ { cells := [cellT "1", cellT "Public Works Department", cellL "view" "/pwd"] } ] }

/-- An organisation-page row whose fifth cell links to a tender. -/
def orgRow (h : String) : Row :=
  { cells := [cellT "1", cellT "d", cellT "e", cellT "f", cellL "t" h] }

/-- The organisation page of the end-to-end scenario: two tender links. -/
def pwdOrgPage : Page := { listTables := [ { rows := [orgRow "/t1", orgRow "/t2"] } ] }

/-- Scenario tender one: value 25,00,000, id T1 — below threshold. -/
def t1Detail : DetailPage :=
  { valueCellText := some "₹25,00,000", idChain := some ("T1", "PWD|Division1"),
    tenderType := some "Open Tender", dates := defaultDates }

/-- Scenario tender two: value 50,00,000, id T2 — at or above threshold. -/
def t2Detail : DetailPage :=
  { valueCellText := some "50,00,000", idChain := some ("T2", "PWD|Division2"),
    tenderType := some "Open Tender", dates := defaultDates }

/-- A parsable detail page with no tender id (the `tablebg` extraction failed). -/
def noIdDetail : DetailPage :=
  { valueCellText := some "100", idChain := none, tenderType := some "Open",
    dates := defaultDates }

/-- The world of the end-to-end scenario. -/
def scenarioWorld : World :=
  { orgPage := fun u => if u = BASE_URL ++ "/pwd" then some pwdOrgPage else none
    detailPage := fun u =>
      if u = BASE_URL ++ "/t1" then some t1Detail
      else if u = BASE_URL ++ "/t2" then some t2Detail
      else none }

/-- The end-to-end scenario run over the single configured department. -/
def scenarioRun : Except Unit (ScraperState × List Event) :=
  runDepartments scenarioWorld pwdTable (initState []) ["Public Works Department"]

/-- The final state and trace of the scenario run. -/
def scenarioFinal : ScraperState × List Event :=
  scenarioRun.toOption.getD (initState [], [])

/-- An organisation page carrying no "list_table" table at all. -/
def noTablePage : Page := { listTables := [] }

/-- A world whose organisation pages all come back without the marker table. -/
def crashyWorld : World :=
  { orgPage := fun _ => some noTablePage, detailPage := fun _ => none }

/-- A response body carrying the session-expiry marker. -/
def expiredBody : String := "Your session has timed out. Please login again."

/-- A network whose every response is 2xx but session-expired. -/
def expiredNet : Nat → Option HttpResponse :=
  fun _ => some { ok := true, body := expiredBody }

/-! ## Numeric-normalization lemmas -/

theorem digitsVal_lt {l : List Char} (h : l.all isDigitChar = true) (acc : Nat) :
    digitsVal l acc < (acc + 1) * 10 ^ l.length := by
  induction l generalizing acc with
  | nil =>
    simp only [digitsVal, List.length_nil, pow_zero, Nat.mul_one]
    omega
  | cons c cs ih =>
    simp only [List.all_cons, Bool.and_eq_true] at h
    have hd : c.toNat - 48 ≤ 9 := by
      have h1 := h.1
      simp only [isDigitChar, Bool.and_eq_true, decide_eq_true_eq] at h1
      omega
    have h2 := ih h.2 (10 * acc + (c.toNat - 48))
    have h3 : (10 * acc + (c.toNat - 48) + 1) * 10 ^ cs.length ≤ 10 * (acc + 1) * 10 ^ cs.length :=
      Nat.mul_le_mul_right _ (by omega)
    calc digitsVal (c :: cs) acc = digitsVal cs (10 * acc + (c.toNat - 48)) := rfl
      _ < (10 * acc + (c.toNat - 48) + 1) * 10 ^ cs.length := h2
      _ ≤ 10 * (acc + 1) * 10 ^ cs.length := h3
      _ = (acc + 1) * 10 ^ (c :: cs).length := by
          rw [List.length_cons, pow_succ]
          ring

theorem parseNumeralCore_valid {l : List Char} {n : PyNum}
    (h : parseNumeralCore l = some n) : n.neg = false ∧ n.fnum < 10 ^ n.flen := by
  unfold parseNumeralCore at h
  split at h
  · split at h
    · injection h with h
      subst h
      exact ⟨rfl, by norm_num⟩
    · exact absurd h (by simp)
  · split at h
    next hc =>
      injection h with h
      subst h
      refine ⟨rfl, ?_⟩
      have hall := hc.2.1
      rw [List.all_append, Bool.and_eq_true] at hall
      simpa using digitsVal_lt hall.2 0
    next hc => exact absurd h (by simp)

theorem pyFloatParse_valid {s : String} {n : PyNum}
    (h : pyFloatParse s = some n) : n.fnum < 10 ^ n.flen := by
  unfold pyFloatParse at h
  split at h
  · exact absurd h (by simp)
  · split at h
    · rw [Option.map_eq_some'] at h
      obtain ⟨m, hm, rfl⟩ := h
      exact (parseNumeralCore_valid hm).2
    · split at h
      · exact (parseNumeralCore_valid h).2
      · exact (parseNumeralCore_valid h).2

theorem upperChar_N {x : Char} (h : upperChar x = 'N') :
    isDigitChar x = false ∧ x ≠ '.' ∧ x ≠ '-' ∧ x ≠ '+' := by
  unfold upperChar at h
  split at h
  next hc =>
    refine ⟨?_, ?_, ?_, ?_⟩
    · simp only [isDigitChar]
      have h57 : decide (x.toNat ≤ 57) = false := by
        simp only [decide_eq_false_iff_not]
        omega
      simp [h57]
    · intro he
      rw [he] at hc
      exact absurd hc (by decide)
    · intro he
      rw [he] at hc
      exact absurd hc (by decide)
    · intro he
      rw [he] at hc
      exact absurd hc (by decide)
  next hc =>
    subst h
    exact ⟨by decide, by decide, by decide, by decide⟩

theorem pyFloatParse_not_na {s : String} {n : PyNum} (h : pyFloatParse s = some n) :
    ¬ (pyUpper s = "NA" ∨ s = "") := by
  rintro (hna | rfl)
  · have hmap : s.toList.map upperChar = ['N', 'A'] := by
      have h2 := congrArg String.toList hna
      simpa [pyUpper] using h2
    rcases hl : s.toList with _ | ⟨a, rest1⟩
    · rw [hl] at hmap
      simp at hmap
    rcases rest1 with _ | ⟨b, rest2⟩
    · rw [hl] at hmap
      simp at hmap
    rcases rest2 with _ | ⟨c, rest3⟩
    case cons.cons.cons =>
      rw [hl] at hmap
      simp at hmap
    rw [hl] at hmap
    simp only [List.map_cons, List.map_nil, List.cons.injEq, and_true] at hmap
    obtain ⟨hA, hB⟩ := hmap
    obtain ⟨hdig, hdot, hminus, hplus⟩ := upperChar_N hA
    unfold pyFloatParse at h
    rw [hl] at h
    simp only [hminus, hplus, if_false] at h
    have hane : (a != '.') = true := by
      simp [bne_iff_ne, hdot]
    unfold parseNumeralCore intPartOf at h
    by_cases hb : b = '.'
    · subst hb
      simp only [List.dropWhile, List.takeWhile, hane] at h
      simp only [bne_self_eq_false] at h
      split at h
      next hc =>
        have h2 := hc.2.1
        simp [List.all_cons, List.all_append, hdig] at h2
      next hc => exact absurd h (by simp)
    · have hbne : (b != '.') = true := by simp [bne_iff_ne, hb]
      simp only [List.dropWhile, List.takeWhile, hane, hbne] at h
      split at h
      next hc =>
        have h2 := hc.2
        simp [List.all_cons, hdig] at h2
      next hc => exact absurd h (by simp)
  · have hnone : pyFloatParse "" = none := by decide
    rw [hnone] at h
    exact Option.noConfusion h

theorem natDiv_bounds (P Q : Nat) (hQ : 0 < Q) :
    ((P / Q : Nat) : ℚ) * (Q : ℚ) ≤ (P : ℚ) ∧
      (P : ℚ) < (((P / Q : Nat) : ℚ) + 1) * (Q : ℚ) := by
  constructor
  · exact_mod_cast Nat.div_mul_le_self P Q
  · have h1 : Q * (P / Q) + P % Q = P := Nat.div_add_mod P Q
    have h2 : P % Q < Q := Nat.mod_lt _ hQ
    have h4 : P < (P / Q + 1) * Q := by
      calc P = Q * (P / Q) + P % Q := h1.symm
        _ < Q * (P / Q) + Q := by omega
        _ = (P / Q + 1) * Q := by ring
    exact_mod_cast h4

theorem Dbl.truncZ_toward_zero (d : Dbl) :
    (0 ≤ d.toRat → (d.truncZ : ℚ) ≤ d.toRat ∧ d.toRat < d.truncZ + 1) ∧
    (d.toRat < 0 → d.toRat ≤ (d.truncZ : ℚ) ∧ (d.truncZ : ℚ) < d.toRat + 1) := by
  obtain ⟨T, M, hT, hM, hb1, hb2, hT0, hM0⟩ :
      ∃ T M : ℚ, (d.truncZ : ℚ) = (if d.neg = true then -1 else 1) * T ∧
        d.toRat = (if d.neg = true then -1 else 1) * M ∧
        T ≤ M ∧ M < T + 1 ∧ 0 ≤ T ∧ 0 ≤ M := by
    by_cases hk : 0 ≤ d.k
    · refine ⟨((d.m * 2 ^ d.k.toNat : Nat) : ℚ), ((d.m * 2 ^ d.k.toNat : Nat) : ℚ),
        ?_, ?_, le_refl _, by linarith, by positivity, by positivity⟩
      · unfold Dbl.truncZ
        rw [if_pos hk]
        push_cast
        ring
      · unfold Dbl.toRat pow2
        rw [if_pos hk]
        push_cast
        ring
    · have hQ : (0 : ℚ) < ((2 ^ (-d.k).toNat : Nat) : ℚ) := by positivity
      have hb := natDiv_bounds d.m (2 ^ (-d.k).toNat) (by positivity)
      refine ⟨((d.m / 2 ^ (-d.k).toNat : Nat) : ℚ),
        (d.m : ℚ) / ((2 ^ (-d.k).toNat : Nat) : ℚ), ?_, ?_, ?_, ?_, by positivity, by positivity⟩
      · unfold Dbl.truncZ
        rw [if_neg hk, Int.cast_mul, Int.cast_natCast]
        cases d.neg <;> simp
      · unfold Dbl.toRat pow2
        rw [if_neg hk]
        push_cast
        ring
      · rw [le_div_iff₀ hQ]
        exact hb.1
      · rw [div_lt_iff₀ hQ]
        exact hb.2
  cases hneg : d.neg with
  | false =>
    rw [hneg] at hT hM
    simp only [Bool.false_eq_true, if_false, one_mul] at hT hM
    rw [hT, hM]
    constructor
    · intro h
      exact ⟨hb1, by linarith⟩
    · intro h
      exact absurd h (by linarith)
  | true =>
    rw [hneg] at hT hM
    simp only [if_true] at hT hM
    rw [hT, hM]
    constructor
    · intro h
      constructor
      · nlinarith
      · nlinarith
    · intro h
      constructor
      · nlinarith
      · nlinarith


/-! ## Bridging lemmas for `get_tender_value` -/

theorem parsedTenderValue_eq {p : DetailPage} {s : String} (hs : p.valueCellText = some s) :
    parsedTenderValue p = parsedValueOfText s := by
  unfold parsedTenderValue
  rw [hs]

theorem ptv_none_cell {p : DetailPage} (hs : p.valueCellText = none) :
    parsedTenderValue p = none := by
  unfold parsedTenderValue
  rw [hs]

theorem get_tender_value_eq {p : DetailPage} {s : String} (hs : p.valueCellText = some s) :
    get_tender_value p =
      match parsedValueOfText s with
      | none => .unparsable
      | some none => .keep (mkKeepRecord p none)
      | some (some v) =>
          if v < 3000000 then .keep (mkKeepRecord p (some v)) else .skip := by
  unfold get_tender_value
  rw [hs]

theorem gtv_of_value {p : DetailPage} {s : String} {v : Int} (hs : p.valueCellText = some s)
    (hval : parsedValueOfText s = some (some v)) :
    get_tender_value p = if v < 3000000 then .keep (mkKeepRecord p (some v)) else .skip := by
  rw [get_tender_value_eq hs, hval]

theorem gtv_of_null {p : DetailPage} {s : String} (hs : p.valueCellText = some s)
    (hval : parsedValueOfText s = some none) :
    get_tender_value p = .keep (mkKeepRecord p none) := by
  rw [get_tender_value_eq hs, hval]

/-- C4: for every successfully parsed numeric-or-null tender value v, the
filter classifies Keep exactly when v is null or v < 3000000 and Skip exactly
when v ≥ 3000000 (the boundary instances are in the witness). -/
theorem C4_threshold_boundary (p : DetailPage) (v : Option Int)
    (hv : parsedTenderValue p = some v) :
    ((∃ r, get_tender_value p = .keep r ∧ r.tender_value = v) ↔
      (v = none ∨ ∃ x, v = some x ∧ x < 3000000)) ∧
    (get_tender_value p = .skip ↔ ∃ x, v = some x ∧ 3000000 ≤ x) := by
  cases hs : p.valueCellText with
  | none =>
    rw [ptv_none_cell hs] at hv
    exact absurd hv (by simp)
  | some s =>
    rw [parsedTenderValue_eq hs] at hv
    cases v with
    | none =>
      rw [gtv_of_null hs hv]
      refine ⟨⟨fun _ => Or.inl rfl, fun _ => ⟨mkKeepRecord p none, rfl, rfl⟩⟩, ?_, ?_⟩
      · intro h
        exact absurd h (by simp)
      · rintro ⟨y, hy, -⟩
        exact absurd hy (by simp)
    | some x =>
      rw [gtv_of_value hs hv]
      by_cases hx : x < 3000000
      · rw [if_pos hx]
        refine ⟨⟨fun _ => Or.inr ⟨x, rfl, hx⟩, fun _ => ⟨mkKeepRecord p (some x), rfl, rfl⟩⟩, ?_, ?_⟩
        · intro h
          exact absurd h (by simp)
        · rintro ⟨y, hy, hle⟩
          injection hy with hy
          omega
      · rw [if_neg hx]
        push_neg at hx
        refine ⟨⟨?_, ?_⟩, fun _ => ⟨x, rfl, hx⟩, fun _ => rfl⟩
        · rintro ⟨r, hr, -⟩
          exact absurd hr (by simp)
        · rintro (h | ⟨y, hy, hlt⟩)
          · exact absurd h (by simp)
          · injection hy with hy
            omega

theorem C4_threshold_boundary_witness :
    get_tender_value (detailPageWith "3000000") = .skip ∧
    (∃ r, get_tender_value (detailPageWith "2999999") = .keep r ∧
      r.tender_value = some 2999999) ∧
    (∃ r, get_tender_value (detailPageWith "NA") = .keep r ∧ r.tender_value = none) := by
  refine ⟨?_, ?_, ?_⟩
  · exact (C4_threshold_boundary (detailPageWith "3000000") (some 3000000) (by decide)).2.mpr
      ⟨3000000, rfl, by norm_num⟩
  · exact (C4_threshold_boundary (detailPageWith "2999999") (some 2999999) (by decide)).1.mpr
      (Or.inr ⟨2999999, rfl, by norm_num⟩)
  · exact (C4_threshold_boundary (detailPageWith "NA") none (by decide)).1.mpr
      (Or.inl rfl)

/-- C5: normalization strips separators and the currency symbol, maps
case-insensitive "NA" and the empty string to the null value (a Keep record
with no partial data loss), maps any other non-numeral token to the
unparsable outcome carrying no record, and maps the concrete inputs as the
spec lists them. -/
theorem C5_numeric_normalization (p : DetailPage) (s : String)
    (hs : p.valueCellText = some s) :
    ((pyUpper (cleanValueText s) = "NA" ∨ cleanValueText s = "") →
      get_tender_value p = .keep (mkKeepRecord p none)) ∧
    (pyUpper (cleanValueText s) ≠ "NA" → cleanValueText s ≠ "" →
      pyFloatParse (cleanValueText s) = none → get_tender_value p = .unparsable) ∧
    (s = "₹30,00,000" → parsedTenderValue p = some (some 3000000)) ∧
    (s = "3000000" → parsedTenderValue p = some (some 3000000)) ∧
    (s = "NA" → parsedTenderValue p = some none) ∧
    (s = "" → parsedTenderValue p = some none) ∧
    (s = "abc" → get_tender_value p = .unparsable) := by
  have hb := get_tender_value_eq hs
  have hptv := parsedTenderValue_eq hs
  refine ⟨?_, ?_, ?_, ?_, ?_, ?_, ?_⟩
  · intro h
    have hval : parsedValueOfText s = some none := by
      unfold parsedValueOfText
      rw [if_pos h]
    rw [hb, hval]
  · intro h1 h2 h3
    have hval : parsedValueOfText s = none := by
      unfold parsedValueOfText
      rw [if_neg (by tauto), h3]
    rw [hb, hval]
  · rintro rfl
    rw [hptv]
    decide
  · rintro rfl
    rw [hptv]
    decide
  · rintro rfl
    rw [hptv]
    decide
  · rintro rfl
    rw [hptv]
    decide
  · rintro rfl
    have hval : parsedValueOfText "abc" = none := by decide
    rw [hb, hval]

theorem C5_numeric_normalization_witness :
    get_tender_value (detailPageWith "abc") = .unparsable ∧
    parsedTenderValue (detailPageWith "₹30,00,000") = some (some 3000000) ∧
    parsedTenderValue (detailPageWith "NA") = some none := by
  refine ⟨?_, ?_, ?_⟩
  · exact (C5_numeric_normalization (detailPageWith "abc") "abc" rfl).2.2.2.2.2.2 rfl
  · exact (C5_numeric_normalization (detailPageWith "₹30,00,000") "₹30,00,000" rfl).2.2.1 rfl
  · exact (C5_numeric_normalization (detailPageWith "NA") "NA" rfl).2.2.2.2.1 rfl

/-- C10: a value cell whose cleaned text is a plain decimal numeral within
double range is never unparsable; the number is converted via float — the
nearest IEEE binary64 value d — and that float truncated toward zero to an
integer before the threshold comparison (the two truncation conjuncts pin
the integer between the float's value and the next integer toward the
sign), and "29,99,999.99" yields the integer 2999999. -/
theorem C10_decimal_trunc (p : DetailPage) (s : String) (n : PyNum) (d : Dbl)
    (hs : p.valueCellText = some s) (hn : pyFloatParse (cleanValueText s) = some n)
    (hd : roundToDouble n = some d) :
    parsedTenderValue p = some (some d.truncZ) ∧
    get_tender_value p ≠ .unparsable ∧
    (d.truncZ < 3000000 → get_tender_value p = .keep (mkKeepRecord p (some d.truncZ))) ∧
    (3000000 ≤ d.truncZ → get_tender_value p = .skip) ∧
    (0 ≤ d.toRat → (d.truncZ : ℚ) ≤ d.toRat ∧ d.toRat < d.truncZ + 1) ∧
    (d.toRat < 0 → d.toRat ≤ (d.truncZ : ℚ) ∧ (d.truncZ : ℚ) < d.toRat + 1) ∧
    (s = "29,99,999.99" → d.truncZ = 2999999) := by
  have hguard := pyFloatParse_not_na hn
  have hif : pyIntFloat n = some d.truncZ := by
    unfold pyIntFloat
    rw [hd]
    rfl
  have hval : parsedValueOfText s = some (some d.truncZ) := by
    unfold parsedValueOfText
    rw [if_neg hguard, hn]
    simp only []
    rw [hif]
  have hite := gtv_of_value hs hval
  refine ⟨?_, ?_, ?_, ?_, (Dbl.truncZ_toward_zero d).1, (Dbl.truncZ_toward_zero d).2, ?_⟩
  · rw [parsedTenderValue_eq hs, hval]
  · rw [hite]
    split
    · simp
    · simp
  · intro h
    rw [hite, if_pos h]
  · intro h
    rw [hite, if_neg (not_lt.mpr h)]
  · rintro rfl
    have h2 : pyFloatParse (cleanValueText "29,99,999.99") = some ⟨false, 2999999, 99, 2⟩ := by
      decide
    rw [h2] at hn
    injection hn with hn
    rw [← hn] at hd
    have h3 : roundToDouble ⟨false, 2999999, 99, 2⟩ =
        some ⟨false, 6442450922525164, -31⟩ := by decide
    rw [h3] at hd
    injection hd with hd
    rw [← hd]
    decide

theorem C10_decimal_trunc_witness :
    parsedTenderValue (detailPageWith "29,99,999.99") = some (some 2999999) ∧
    get_tender_value (detailPageWith "29,99,999.99") =
      .keep (mkKeepRecord (detailPageWith "29,99,999.99") (some 2999999)) := by
  have h := C10_decimal_trunc (detailPageWith "29,99,999.99") "29,99,999.99"
    ⟨false, 2999999, 99, 2⟩ ⟨false, 6442450922525164, -31⟩ rfl (by decide) (by decide)
  have ht : Dbl.truncZ ⟨false, 6442450922525164, -31⟩ = 2999999 := by decide
  constructor
  · have h1 := h.1
    rwa [ht] at h1
  · have h2 := h.2.2.1 (by rw [ht]; norm_num)
    rwa [ht] at h2

/-! ## Department-link extraction lemmas -/

theorem edlr_cons (name : String) (r : Row) (rs : List Row) :
    extract_department_link_rows name (r :: rs) =
      match r.cells with
      | _ :: c1 :: c2 :: _ =>
        if pyStrip c1.text = name then
          match c2.href with
          | some h => some (BASE_URL ++ pyStrip h)
          | none => extract_department_link_rows name rs
        else extract_department_link_rows name rs
      | _ => extract_department_link_rows name rs := rfl

theorem edlr_none_iff (name : String) (rows : List Row) :
    extract_department_link_rows name rows = none ↔ ∀ r ∈ rows, ¬ rowMatches name r := by
  induction rows with
  | nil => simp [extract_department_link_rows]
  | cons r rs ih =>
    rw [edlr_cons]
    rcases hc : r.cells with _ | ⟨c0, _ | ⟨c1, _ | ⟨c2, rest⟩⟩⟩
    · simp only [List.forall_mem_cons]
      simp [rowMatches, hc, ih]
    · simp only [List.forall_mem_cons]
      simp [rowMatches, hc, ih]
    · simp only [List.forall_mem_cons]
      simp [rowMatches, hc, ih]
    · by_cases hname : pyStrip c1.text = name
      · cases hh : c2.href with
        | some h2 =>
          simp only [hc, hname, if_true, hh, List.forall_mem_cons]
          constructor
          · intro hcontra
            exact absurd hcontra (by simp)
          · rintro ⟨hr, -⟩
            exact absurd ⟨c0, c1, c2, rest, hc, hname, h2, hh⟩ hr
        | none =>
          simp only [hc, hname, if_true, hh, List.forall_mem_cons]
          rw [ih]
          constructor
          · intro hrs
            refine ⟨?_, hrs⟩
            rintro ⟨d0, d1, d2, drest, hcell, -, hd, hdh⟩
            rw [hc] at hcell
            injection hcell with e0 hcell
            injection hcell with e1 hcell
            injection hcell with e2 hcell
            rw [← e2] at hdh
            rw [hh] at hdh
            exact Option.noConfusion hdh
          · exact And.right
      · simp only [hc, hname, if_false, List.forall_mem_cons]
        rw [ih]
        constructor
        · intro hrs
          refine ⟨?_, hrs⟩
          rintro ⟨d0, d1, d2, drest, hcell, hd, -⟩
          rw [hc] at hcell
          injection hcell with e0 hcell
          injection hcell with e1 hcell
          rw [← e1] at hd
          exact hname hd
        · exact And.right

theorem edlr_some {name : String} {rows : List Row} {url : String}
    (h : extract_department_link_rows name rows = some url) :
    ∃ r ∈ rows, ∃ c0 c1 c2 rest hcol, r.cells = c0 :: c1 :: c2 :: rest ∧
      pyStrip c1.text = name ∧ c2.href = some hcol ∧ url = BASE_URL ++ pyStrip hcol := by
  induction rows with
  | nil => simp [extract_department_link_rows] at h
  | cons r rs ih =>
    rw [edlr_cons] at h
    rcases hc : r.cells with _ | ⟨c0, _ | ⟨c1, _ | ⟨c2, rest⟩⟩⟩
    · rw [hc] at h
      simp only [] at h
      obtain ⟨r2, hmem, hrest⟩ := ih h
      exact ⟨r2, List.mem_cons_of_mem r hmem, hrest⟩
    · rw [hc] at h
      simp only [] at h
      obtain ⟨r2, hmem, hrest⟩ := ih h
      exact ⟨r2, List.mem_cons_of_mem r hmem, hrest⟩
    · rw [hc] at h
      simp only [] at h
      obtain ⟨r2, hmem, hrest⟩ := ih h
      exact ⟨r2, List.mem_cons_of_mem r hmem, hrest⟩
    · rw [hc] at h
      simp only [] at h
      by_cases hname : pyStrip c1.text = name
      · rw [if_pos hname] at h
        cases hh : c2.href with
        | some h2 =>
          rw [hh] at h
          simp only [] at h
          injection h with h
          exact ⟨r, List.mem_cons_self r rs, c0, c1, c2, rest, h2, hc, hname, hh, h.symm⟩
        | none =>
          rw [hh] at h
          simp only [] at h
          obtain ⟨r2, hmem, hrest⟩ := ih h
          exact ⟨r2, List.mem_cons_of_mem r hmem, hrest⟩
      · rw [if_neg hname] at h
        obtain ⟨r2, hmem, hrest⟩ := ih h
        exact ⟨r2, List.mem_cons_of_mem r hmem, hrest⟩

/-- C8 counterexample: the configured name "Public Works Department " differs
from the portal listing "Public Works Department" by trailing whitespace, yet
resolution succeeds (the configuration is stripped on line 57), so a
whitespace difference does not yield NotFound. -/
theorem C8_counterexample :
    resolveDepartment pwdTable "Public Works Department " =
      some "https://eproc.rajasthan.gov.in/pwd" ∧
    "Public Works Department " ≠ "Public Works Department" := by
  exact ⟨by decide, by decide⟩

/-- C8 amended: resolution strips leading and trailing whitespace from the
configured name (line 57) and from the portal's name cell (strip=True), then
requires exact, case-sensitive string equality; a name differing by case or
interior whitespace yields NotFound, and on a match the URL is BASE_URL plus
the stripped href of the adjacent column's anchor. -/
theorem C8_amended (t : Table) (config : String) :
    (resolveDepartment t config = none ↔ ∀ r ∈ t.rows, ¬ rowMatches (pyStrip config) r) ∧
    (∀ url, resolveDepartment t config = some url →
      ∃ r ∈ t.rows, ∃ c0 c1 c2 rest hcol, r.cells = c0 :: c1 :: c2 :: rest ∧
        pyStrip c1.text = pyStrip config ∧ c2.href = some hcol ∧
        url = BASE_URL ++ pyStrip hcol) :=
  ⟨edlr_none_iff (pyStrip config) t.rows, fun _ h => edlr_some h⟩

theorem C8_amended_witness :
    ∃ r ∈ pwdTable.rows, ∃ c0 c1 c2 rest hcol, r.cells = c0 :: c1 :: c2 :: rest ∧
      pyStrip c1.text = pyStrip "Public Works Department" ∧ c2.href = some hcol ∧
      "https://eproc.rajasthan.gov.in/pwd" = BASE_URL ++ pyStrip hcol :=
  (C8_amended pwdTable "Public Works Department").2
    "https://eproc.rajasthan.gov.in/pwd" (by decide)

/-! ## Extractor failure-mode lemmas -/

/-- C3 counterexample: tender-link extraction on an organisation page with no
marker-class table raises (line 140 indexes an empty find_all result), and
that uncaught error aborts the whole run from inside a department — a
non-directory failure halting the run. -/
theorem C3_counterexample :
    get_tender_links_from_org_page noTablePage = .error () ∧
    runDepartments crashyWorld pwdTable (initState []) ["Public Works Department"] =
      .error () := by
  exact ⟨rfl, rfl⟩

/-- C3 amended: the department-table, department-link and tender-detail
extractors return explicit markers, and tender-link extraction returns the
(possibly empty) link sequence when the organisation page carries at least
one marker-class table, but raises when it carries none, in which case the
error propagates out of the per-department step and halts the run. -/
theorem C3_amended (p : Page) (w : World) (table : Table) (st : ScraperState)
    (dept link : String) :
    (p.listTables = [] → get_tender_links_from_org_page p = .error ()) ∧
    (∀ t ts, p.listTables = t :: ts →
      get_tender_links_from_org_page p = .ok (collectTenderLinks t.rows)) ∧
    (get_department_table p = none ↔ p.listTables.length < 3) ∧
    (extract_department_link table dept = some link → w.orgPage link = some p →
      p.listTables = [] → processDepartment w table st dept = .error ()) := by
  refine ⟨?_, ?_, ?_, ?_⟩
  · intro h
    unfold get_tender_links_from_org_page
    rw [h]
  · intro t ts h
    unfold get_tender_links_from_org_page
    rw [h]
  · unfold get_department_table
    by_cases h : p.listTables.length < 3
    · simp [h]
    · rw [if_neg h]
      simp only [h, iff_false]
      intro hcontra
      have h2 : 2 < p.listTables.length := by omega
      rw [List.getElem?_eq_getElem h2] at hcontra
      exact Option.noConfusion hcontra
  · intro h1 h2 h3
    have h4 : get_tender_links_from_org_page p = .error () := by
      unfold get_tender_links_from_org_page
      rw [h3]
    unfold processDepartment
    simp only [h1, h2, h4]

theorem C3_amended_witness :
    processDepartment crashyWorld pwdTable (initState []) "Public Works Department" =
      .error () :=
  (C3_amended noTablePage crashyWorld pwdTable (initState []) "Public Works Department"
    (BASE_URL ++ "/pwd")).2.2.2 (by decide) rfl rfl

/-! ## Fetcher lemmas -/

/-- C2 counterexample: when both the first and the retried responses carry the
expiry marker (and are 2xx), `fetch_page` returns the still-expired page body —
not the Failed outcome the claim requires. -/
theorem C2_counterexample :
    fetch_page expiredNet = (some expiredBody, [.getPage, .getRestart, .getPage]) ∧
    sessionExpired expiredBody = true := by
  exact ⟨by decide, by decide⟩

/-- C2 amended: a first-response expiry triggers exactly one restart request
and at most one retried GET, with no further retries; the Failed outcome
arises only from a transport error or non-2xx status around the retry, while
a 2xx retried response is returned as-is, its body not re-checked for the
expiry marker (so a second consecutive expiry returns the expired page). -/
theorem C2_session_recovery (net : Nat → Option HttpResponse) (r1 : HttpResponse)
    (h0 : net 0 = some r1) (hok : r1.ok = true) (hexp : sessionExpired r1.body = true) :
    countStep .getRestart (fetch_page net).2 = 1 ∧
    countStep .getPage (fetch_page net).2 ≤ 2 ∧
    (net 1 = none → fetch_page net = (none, [.getPage, .getRestart])) ∧
    (∀ x, net 1 = some x → net 2 = none →
      fetch_page net = (none, [.getPage, .getRestart, .getPage])) ∧
    (∀ x r2, net 1 = some x → net 2 = some r2 → r2.ok = false →
      fetch_page net = (none, [.getPage, .getRestart, .getPage])) ∧
    (∀ x r2, net 1 = some x → net 2 = some r2 → r2.ok = true →
      fetch_page net = (some r2.body, [.getPage, .getRestart, .getPage])) := by
  have hbase : fetch_page net =
      match net 1 with
      | none => (none, [.getPage, .getRestart])
      | some _ =>
        match net 2 with
        | none => (none, [.getPage, .getRestart, .getPage])
        | some r2 =>
          if r2.ok = false then (none, [.getPage, .getRestart, .getPage])
          else (some r2.body, [.getPage, .getRestart, .getPage]) := by
    unfold fetch_page
    rw [h0]
    simp only []
    simp only [hok, hexp, Bool.true_eq_false, if_false, if_true]
  have htr : (fetch_page net).2 = [.getPage, .getRestart] ∨
      (fetch_page net).2 = [.getPage, .getRestart, .getPage] := by
    rw [hbase]
    cases hn1 : net 1 with
    | none => exact Or.inl rfl
    | some x =>
      cases hn2 : net 2 with
      | none => exact Or.inr rfl
      | some r2 =>
        simp only []
        by_cases h2 : r2.ok = false
        · rw [if_pos h2]
          exact Or.inr rfl
        · rw [if_neg h2]
          exact Or.inr rfl
  refine ⟨?_, ?_, ?_, ?_, ?_, ?_⟩
  · rcases htr with h | h <;> rw [h] <;> decide
  · rcases htr with h | h <;> rw [h] <;> decide
  · intro h1
    rw [hbase, h1]
  · intro x h1 h2
    rw [hbase, h1, h2]
  · intro x r2 h1 h2 h3
    rw [hbase, h1, h2]
    simp only []
    rw [if_pos h3]
  · intro x r2 h1 h2 h3
    rw [hbase, h1, h2]
    simp only []
    rw [if_neg (by simp [h3])]

theorem C2_session_recovery_witness :
    countStep .getRestart (fetch_page expiredNet).2 = 1 ∧
    fetch_page expiredNet = (some expiredBody, [.getPage, .getRestart, .getPage]) := by
  have h := C2_session_recovery expiredNet { ok := true, body := expiredBody } rfl rfl (by decide)
  exact ⟨h.1, h.2.2.2.2.2 { ok := true, body := expiredBody }
    { ok := true, body := expiredBody } rfl rfl rfl⟩

/-! ## Orchestrator lemmas -/

theorem gtv_none_cell {p : DetailPage} (hs : p.valueCellText = none) :
    get_tender_value p = .unparsable := by
  unfold get_tender_value
  rw [hs]

theorem keep_value_filter {p : DetailPage} {r : TenderRecord}
    (h : get_tender_value p = .keep r) :
    r.tender_value = none ∨ ∃ v, r.tender_value = some v ∧ v < 3000000 := by
  cases hs : p.valueCellText with
  | none =>
    rw [gtv_none_cell hs] at h
    exact absurd h (by simp)
  | some s =>
    rw [get_tender_value_eq hs] at h
    cases hval : parsedValueOfText s with
    | none =>
      rw [hval] at h
      exact absurd h (by simp)
    | some v =>
      cases v with
      | none =>
        rw [hval] at h
        simp only [] at h
        injection h with h
        left
        rw [← h]
        rfl
      | some x =>
        rw [hval] at h
        simp only [] at h
        by_cases hx : x < 3000000
        · rw [if_pos hx] at h
          injection h with h
          right
          refine ⟨x, ?_, hx⟩
          rw [← h]
          rfl
        · rw [if_neg hx] at h
          exact absurd h (by simp)

theorem processTender_cases (f : String → Option DetailPage) (st : ScraperState)
    (url : String) :
    processTender f st url = (st, []) ∨
    processTender f st url =
      ({ st with saved := st.saved ++ [url], body := st.body ++ failDetailLine url },
        [.savePage url, .appendFailLine url]) ∨
    (∃ t, t ∈ st.seen ∧ processTender f st url = (st, [.seenCheck t true])) ∨
    (∃ t page r, f url = some page ∧ get_tender_value page = .keep r ∧
      r.tender_id = some t ∧ t ≠ "" ∧ t ∉ st.seen ∧
      (r.tender_value = none ∨ ∃ v, r.tender_value = some v ∧ v < 3000000) ∧
      processTender f st url =
        ({ st with count := st.count + 1, seen := st.seen ++ [t],
                   body := st.body ++ tenderFragment url r },
          [.seenCheck t false, .insertSeen t, .appendFragment t])) := by
  unfold processTender
  cases hf : f url with
  | none => exact Or.inl rfl
  | some page =>
    simp only []
    cases hv : get_tender_value page with
    | unparsable => exact Or.inr (Or.inl rfl)
    | skip => exact Or.inl rfl
    | keep r =>
      simp only []
      cases hid : r.tender_id with
      | none => exact Or.inl rfl
      | some t =>
        simp only []
        by_cases ht : t = ""
        · rw [if_pos ht]
          exact Or.inl rfl
        · rw [if_neg ht]
          by_cases hseen : t ∈ st.seen
          · rw [if_pos hseen]
            exact Or.inr (Or.inr (Or.inl ⟨t, hseen, rfl⟩))
          · rw [if_neg hseen]
            exact Or.inr (Or.inr (Or.inr
              ⟨t, page, r, rfl, hv, hid, ht, hseen, keep_value_filter hv, rfl⟩))

theorem countInsert_append (tid : String) (l1 l2 : List Event) :
    countInsert tid (l1 ++ l2) = countInsert tid l1 + countInsert tid l2 := by
  induction l1 with
  | nil => simp [countInsert]
  | cons e es ih =>
    rw [List.cons_append]
    cases e with
    | insertSeen t =>
      show (if t = tid then 1 else 0) + countInsert tid (es ++ l2) =
        (if t = tid then 1 else 0) + countInsert tid es + countInsert tid l2
      rw [ih]
      omega
    | seenCheck t b =>
      show countInsert tid (es ++ l2) = countInsert tid es + countInsert tid l2
      exact ih
    | appendFragment t =>
      show countInsert tid (es ++ l2) = countInsert tid es + countInsert tid l2
      exact ih
    | appendFailLine u =>
      show countInsert tid (es ++ l2) = countInsert tid es + countInsert tid l2
      exact ih
    | savePage u =>
      show countInsert tid (es ++ l2) = countInsert tid es + countInsert tid l2
      exact ih

theorem processTender_insert_le (f : String → Option DetailPage) (st : ScraperState)
    (url tid : String) :
    countInsert tid (processTender f st url).2 ≤ 1 := by
  rcases processTender_cases f st url with h | h | ⟨t, ht, h⟩ |
    ⟨t, page, r, h1, h2, h3, h4, h5, h6, h⟩
  · rw [h]
    simp [countInsert]
  · rw [h]
    simp [countInsert]
  · rw [h]
    simp [countInsert]
  · rw [h]
    simp only [countInsert]
    split <;> simp

theorem processTender_seen (f : String → Option DetailPage) (st : ScraperState)
    (url tid : String) :
    (tid ∈ st.seen → tid ∈ (processTender f st url).1.seen ∧
      countInsert tid (processTender f st url).2 = 0) ∧
    (countInsert tid (processTender f st url).2 ≠ 0 →
      tid ∉ st.seen ∧ tid ∈ (processTender f st url).1.seen) := by
  rcases processTender_cases f st url with h | h | ⟨t, ht, h⟩ |
    ⟨t, page, r, h1, h2, h3, h4, h5, h6, h⟩
  · rw [h]
    exact ⟨fun hm => ⟨hm, rfl⟩, fun hc => absurd rfl hc⟩
  · rw [h]
    exact ⟨fun hm => ⟨hm, rfl⟩, fun hc => absurd rfl hc⟩
  · rw [h]
    exact ⟨fun hm => ⟨hm, rfl⟩, fun hc => absurd rfl hc⟩
  · rw [h]
    constructor
    · intro hm
      refine ⟨List.mem_append_left _ hm, ?_⟩
      have hne2 : t ≠ tid := fun he => h5 (he ▸ hm)
      simp [countInsert, hne2]
    · intro hc
      have hteq : t = tid := by
        by_contra hne2
        exact hc (by simp [countInsert, hne2])
      subst hteq
      exact ⟨h5, List.mem_append_right _ (by simp)⟩

theorem runTenders_seen_zero (f : String → Option DetailPage) (urls : List String)
    (st : ScraperState) (tid : String) (h : tid ∈ st.seen) :
    tid ∈ (runTenders f st urls).1.seen ∧ countInsert tid (runTenders f st urls).2 = 0 := by
  induction urls generalizing st with
  | nil => exact ⟨h, rfl⟩
  | cons u us ih =>
    have hstep := (processTender_seen f st u tid).1 h
    have hrest := ih (processTender f st u).1 hstep.1
    refine ⟨hrest.1, ?_⟩
    show countInsert tid
      ((processTender f st u).2 ++ (runTenders f (processTender f st u).1 us).2) = 0
    rw [countInsert_append, hstep.2, hrest.2]

theorem runTenders_insert_le (f : String → Option DetailPage) (urls : List String)
    (st : ScraperState) (tid : String) :
    countInsert tid (runTenders f st urls).2 ≤ 1 := by
  induction urls generalizing st with
  | nil => simp [runTenders, countInsert]
  | cons u us ih =>
    show countInsert tid
      ((processTender f st u).2 ++ (runTenders f (processTender f st u).1 us).2) ≤ 1
    rw [countInsert_append]
    by_cases hz : countInsert tid (processTender f st u).2 = 0
    · rw [hz]
      simpa using ih (processTender f st u).1
    · have hm := (processTender_seen f st u tid).2 hz
      have hrest := runTenders_seen_zero f us (processTender f st u).1 tid hm.2
      rw [hrest.2]
      have hle := processTender_insert_le f st u tid
      omega

theorem runTenders_insert_mem (f : String → Option DetailPage) (urls : List String)
    (st : ScraperState) (tid : String)
    (hc : countInsert tid (runTenders f st urls).2 ≠ 0) :
    tid ∉ st.seen ∧ tid ∈ (runTenders f st urls).1.seen := by
  induction urls generalizing st with
  | nil => exact absurd rfl hc
  | cons u us ih =>
    rw [show (runTenders f st (u :: us)).2 =
      (processTender f st u).2 ++ (runTenders f (processTender f st u).1 us).2 from rfl,
      countInsert_append] at hc
    by_cases hz : countInsert tid (processTender f st u).2 = 0
    · rw [hz] at hc
      simp only [Nat.zero_add] at hc
      have h2 := ih (processTender f st u).1 hc
      refine ⟨fun hm => h2.1 ((processTender_seen f st u tid).1 hm).1, h2.2⟩
    · have h1 := (processTender_seen f st u tid).2 hz
      have h2 := runTenders_seen_zero f us (processTender f st u).1 tid h1.2
      exact ⟨h1.1, h2.1⟩

theorem processDepartment_insert (w : World) (table : Table) (st0 : ScraperState)
    (dept tid : String) (st2 : ScraperState) (ev : List Event)
    (h : processDepartment w table st0 dept = .ok (st2, ev)) :
    countInsert tid ev ≤ 1 ∧
    (tid ∈ st0.seen → tid ∈ st2.seen ∧ countInsert tid ev = 0) ∧
    (countInsert tid ev ≠ 0 → tid ∉ st0.seen ∧ tid ∈ st2.seen) := by
  unfold processDepartment at h
  simp only [] at h
  split at h
  · injection h with h
    injection h with h1 h2
    subst h1
    subst h2
    exact ⟨Nat.zero_le 1, fun hm => ⟨hm, rfl⟩, fun hc => absurd rfl hc⟩
  · split at h
    · injection h with h
      injection h with h1 h2
      subst h1
      subst h2
      exact ⟨Nat.zero_le 1, fun hm => ⟨hm, rfl⟩, fun hc => absurd rfl hc⟩
    · split at h
      next e heq2 => exact Except.noConfusion h
      next links heq2 =>
        injection h with h
        injection h with h1 h2
        subst h1
        subst h2
        refine ⟨?_, ?_, ?_⟩
        · exact runTenders_insert_le w.detailPage links
            { st0 with count := 0,
                       body := st0.body ++ deptHeader dept ++ totalLine links.length } tid
        · intro hm
          have h3 := runTenders_seen_zero w.detailPage links
            { st0 with count := 0,
                       body := st0.body ++ deptHeader dept ++ totalLine links.length } tid hm
          exact ⟨h3.1, h3.2⟩
        · intro hc
          have h3 := runTenders_insert_mem w.detailPage links
            { st0 with count := 0,
                       body := st0.body ++ deptHeader dept ++ totalLine links.length } tid hc
          exact ⟨h3.1, h3.2⟩

theorem runDepartments_insert (w : World) (table : Table) (depts : List String)
    (st0 : ScraperState) (tid : String) (st2 : ScraperState) (ev : List Event)
    (h : runDepartments w table st0 depts = .ok (st2, ev)) :
    countInsert tid ev ≤ 1 ∧
    (tid ∈ st0.seen → tid ∈ st2.seen ∧ countInsert tid ev = 0) ∧
    (countInsert tid ev ≠ 0 → tid ∉ st0.seen ∧ tid ∈ st2.seen) := by
  induction depts generalizing st0 st2 ev with
  | nil =>
    unfold runDepartments at h
    injection h with h
    injection h with h1 h2
    subst h1
    subst h2
    exact ⟨Nat.zero_le 1, fun hm => ⟨hm, rfl⟩, fun hc => absurd rfl hc⟩
  | cons d ds ih =>
    unfold runDepartments at h
    split at h
    · exact Except.noConfusion h
    next stA evA heq =>
      split at h
      · exact Except.noConfusion h
      next stB evB heq2 =>
        injection h with h
        injection h with h1 h2
        subst h1
        subst h2
        have hA := processDepartment_insert w table st0 d tid stA evA heq
        have hB := ih stA stB evB heq2
        rw [countInsert_append]
        by_cases hz : countInsert tid evA = 0
        · refine ⟨?_, ?_, ?_⟩
          · rw [hz]
            simpa using hB.1
          · intro hm
            have h3 := hA.2.1 hm
            have h4 := hB.2.1 h3.1
            rw [hz, h4.2]
            exact ⟨h4.1, rfl⟩
          · intro hc
            rw [hz] at hc
            simp only [Nat.zero_add] at hc
            have h3 := hB.2.2 hc
            refine ⟨?_, h3.2⟩
            intro hm
            exact h3.1 (hA.2.1 hm).1
        · have h3 := hA.2.2 hz
          have h4 := hB.2.1 h3.2
          refine ⟨?_, ?_, ?_⟩
          · rw [h4.2]
            have h5 := hA.1
            omega
          · intro hm
            exact absurd hm h3.1
          · intro hc
            exact ⟨h3.1, h4.1⟩

/-- C1: across any whole run (the loop over every configured department),
`insertSeen tid` appears at most once in the run's event trace, and never
when tid was already in the log at run start — so a tender relisted under
another department in the same run is suppressed; and an insertion happens
only when the fetch succeeded and the record passed the filter (value null
or below threshold) with a present non-empty tender_id not already in the
log, the step's trace being exactly seen-check, insert, fragment append, in
that order. -/
theorem C1_dedup_at_most_once (w : World) (table : Table) (depts : List String)
    (st0 : ScraperState) (tid : String) (st2 : ScraperState) (ev : List Event)
    (hrun : runDepartments w table st0 depts = .ok (st2, ev)) :
    countInsert tid ev ≤ 1 ∧
    (tid ∈ st0.seen → countInsert tid ev = 0) ∧
    (∀ st url, countInsert tid (processTender w.detailPage st url).2 ≠ 0 →
      ∃ page r, w.detailPage url = some page ∧ get_tender_value page = .keep r ∧
        r.tender_id = some tid ∧ tid ≠ "" ∧ tid ∉ st.seen ∧
        (r.tender_value = none ∨ ∃ v, r.tender_value = some v ∧ v < 3000000) ∧
        processTender w.detailPage st url =
          ({ st with count := st.count + 1, seen := st.seen ++ [tid],
                     body := st.body ++ tenderFragment url r },
            [.seenCheck tid false, .insertSeen tid, .appendFragment tid])) := by
  have hrd := runDepartments_insert w table depts st0 tid st2 ev hrun
  refine ⟨hrd.1, fun hm => (hrd.2.1 hm).2, ?_⟩
  intro st url hc
  rcases processTender_cases w.detailPage st url with h | h | ⟨t, ht, h⟩ |
    ⟨t, page, r, h1, h2, h3, h4, h5, h6, h⟩
  · rw [h] at hc
    exact absurd rfl hc
  · rw [h] at hc
    exact absurd rfl hc
  · rw [h] at hc
    exact absurd rfl hc
  · have hteq : t = tid := by
      by_contra hne2
      rw [h] at hc
      exact hc (by simp [countInsert, hne2])
    subst hteq
    exact ⟨page, r, h1, h2, h3, h4, h5, h6, h⟩

theorem C1_dedup_at_most_once_witness :
    countInsert "T1" scenarioFinal.2 ≤ 1 ∧
    (∃ page r, scenarioWorld.detailPage "https://eproc.rajasthan.gov.in/t1" = some page ∧
      get_tender_value page = .keep r ∧ r.tender_id = some "T1" ∧ ("T1" : String) ≠ "" ∧
      "T1" ∉ (initState []).seen ∧
      (r.tender_value = none ∨ ∃ v, r.tender_value = some v ∧ v < 3000000) ∧
      processTender scenarioWorld.detailPage (initState [])
          "https://eproc.rajasthan.gov.in/t1" =
        ({ initState [] with count := (initState []).count + 1,
                             seen := (initState []).seen ++ ["T1"],
                             body := (initState []).body ++
                               tenderFragment "https://eproc.rajasthan.gov.in/t1" r },
          [.seenCheck "T1" false, .insertSeen "T1", .appendFragment "T1"])) := by
  have h := C1_dedup_at_most_once scenarioWorld pwdTable ["Public Works Department"]
    (initState []) "T1" scenarioFinal.1 scenarioFinal.2 rfl
  exact ⟨h.1, h.2.2 (initState []) "https://eproc.rajasthan.gov.in/t1" (by decide)⟩

/-- C6: with a dedup log not containing tid, processing the same Keep-classified
identified detail page in two successive runs inserts exactly one entry, emits
exactly one digest fragment in the first run and none in the second, whose
only event is the suppressing seen-check. -/
theorem C6_two_run_idempotence (f : String → Option DetailPage) (s0 : List String)
    (url : String) (page : DetailPage) (r : TenderRecord) (tid : String)
    (hf : f url = some page) (hv : get_tender_value page = .keep r)
    (hid : r.tender_id = some tid) (hne : tid ≠ "") (hnew : tid ∉ s0) :
    runTenders f (initState s0) [url] =
      ({ seen := s0 ++ [tid], body := "<html><body>" ++ tenderFragment url r,
         count := 1, saved := [] },
        [.seenCheck tid false, .insertSeen tid, .appendFragment tid]) ∧
    runTenders f (initState (s0 ++ [tid])) [url] =
      ({ seen := s0 ++ [tid], body := "<html><body>", count := 0, saved := [] },
        [.seenCheck tid true]) ∧
    countInsert tid
      ([Event.seenCheck tid false, .insertSeen tid, .appendFragment tid] ++
        [Event.seenCheck tid true]) = 1 := by
  have hstep1 : processTender f (initState s0) url =
      ({ seen := s0 ++ [tid], body := "<html><body>" ++ tenderFragment url r,
         count := 1, saved := [] },
        [.seenCheck tid false, .insertSeen tid, .appendFragment tid]) := by
    unfold processTender
    rw [hf]
    simp only []
    rw [hv]
    simp only []
    rw [hid]
    simp only []
    rw [if_neg hne]
    rw [if_neg (show tid ∉ (initState s0).seen from hnew)]
    rfl
  have hstep2 : processTender f (initState (s0 ++ [tid])) url =
      (initState (s0 ++ [tid]), [.seenCheck tid true]) := by
    unfold processTender
    rw [hf]
    simp only []
    rw [hv]
    simp only []
    rw [hid]
    simp only []
    rw [if_neg hne]
    rw [if_pos (show tid ∈ (initState (s0 ++ [tid])).seen from
      List.mem_append_right s0 (by simp))]
  have hrun1 : runTenders f (initState s0) [url] =
      ((processTender f (initState s0) url).1, (processTender f (initState s0) url).2 ++ []) :=
    rfl
  have hrun2 : runTenders f (initState (s0 ++ [tid])) [url] =
      ((processTender f (initState (s0 ++ [tid])) url).1,
        (processTender f (initState (s0 ++ [tid])) url).2 ++ []) :=
    rfl
  refine ⟨?_, ?_, ?_⟩
  · rw [hrun1, hstep1]
    rfl
  · rw [hrun2, hstep2]
    rfl
  · simp [countInsert]

theorem C6_two_run_idempotence_witness :
    runTenders (fun _ => some t1Detail) (initState []) ["u"] =
      ({ seen := ["T1"],
         body := "<html><body>" ++ tenderFragment "u" (mkKeepRecord t1Detail (some 2500000)),
         count := 1, saved := [] },
        [.seenCheck "T1" false, .insertSeen "T1", .appendFragment "T1"]) ∧
    runTenders (fun _ => some t1Detail) (initState ["T1"]) ["u"] =
      ({ seen := ["T1"], body := "<html><body>", count := 0, saved := [] },
        [.seenCheck "T1" true]) := by
  have h := C6_two_run_idempotence (fun _ => some t1Detail) [] "u" t1Detail
    (mkKeepRecord t1Detail (some 2500000)) "T1" rfl (by decide) rfl (by decide) (by decide)
  exact ⟨h.1, h.2.1⟩

/-- C7 counterexample: a fetch failure is a bare `continue` (lines 333-335):
the digest body and the saved-pages list are unchanged and no event is
emitted, contradicting the claim that fetch failure contributes a failure
line and triggers raw-page persistence. -/
theorem C7_counterexample :
    processTender (fun _ => none) (initState []) "u" = (initState [], []) ∧
    (processTender (fun _ => none) (initState []) "u").1.body = (initState []).body ∧
    (processTender (fun _ => none) (initState []) "u").1.saved = [] := by
  exact ⟨rfl, rfl, rfl⟩

/-- C7 amended: fetch failure, Unparsable, Skip, already-seen and missing id
are each terminal and non-fatal for that tender only; fetch failure, Skip,
already-seen and missing id contribute no digest entry and no persisted
artifact; only Unparsable appends an explicit failure line and persists the
raw page; a Keep record with absent (or empty) tender_id is discarded without
being reported or inserted into the dedup log. -/
theorem C7_per_tender_outcomes (f : String → Option DetailPage) (st : ScraperState)
    (url : String) :
    (f url = none → processTender f st url = (st, [])) ∧
    (∀ page, f url = some page → get_tender_value page = .unparsable →
      processTender f st url =
        ({ st with saved := st.saved ++ [url], body := st.body ++ failDetailLine url },
          [.savePage url, .appendFailLine url])) ∧
    (∀ page, f url = some page → get_tender_value page = .skip →
      processTender f st url = (st, [])) ∧
    (∀ page r, f url = some page → get_tender_value page = .keep r → r.tender_id = none →
      processTender f st url = (st, [])) ∧
    (∀ page r, f url = some page → get_tender_value page = .keep r →
      r.tender_id = some "" → processTender f st url = (st, [])) ∧
    (∀ page r tid, f url = some page → get_tender_value page = .keep r →
      r.tender_id = some tid → tid ≠ "" → tid ∈ st.seen →
      processTender f st url = (st, [.seenCheck tid true])) := by
  refine ⟨?_, ?_, ?_, ?_, ?_, ?_⟩
  · intro h
    unfold processTender
    rw [h]
  · intro page h hv
    unfold processTender
    rw [h]
    simp only []
    rw [hv]
  · intro page h hv
    unfold processTender
    rw [h]
    simp only []
    rw [hv]
  · intro page r h hv hid
    unfold processTender
    rw [h]
    simp only []
    rw [hv]
    simp only []
    rw [hid]
  · intro page r h hv hid
    unfold processTender
    rw [h]
    simp only []
    rw [hv]
    simp only []
    rw [hid]
    simp only []
    simp only [if_true]
  · intro page r tid h hv hid hne hseen
    unfold processTender
    rw [h]
    simp only []
    rw [hv]
    simp only []
    rw [hid]
    simp only []
    rw [if_neg hne, if_pos hseen]

theorem C7_per_tender_outcomes_witness :
    processTender (fun _ => none) (initState []) "v" = (initState [], []) ∧
    processTender (fun _ => some (detailPageWith "abc")) (initState []) "u" =
      ({ initState [] with saved := (initState []).saved ++ ["u"],
                           body := (initState []).body ++ failDetailLine "u" },
        [.savePage "u", .appendFailLine "u"]) ∧
    processTender (fun _ => some t2Detail) (initState []) "u" = (initState [], []) ∧
    processTender (fun _ => some noIdDetail) (initState []) "u" = (initState [], []) ∧
    processTender (fun _ => some t1Detail) (initState ["T1"]) "u" =
      (initState ["T1"], [.seenCheck "T1" true]) := by
  refine ⟨?_, ?_, ?_, ?_, ?_⟩
  · exact (C7_per_tender_outcomes (fun _ => none) (initState []) "v").1 rfl
  · exact (C7_per_tender_outcomes (fun _ => some (detailPageWith "abc")) (initState []) "u").2.1
      (detailPageWith "abc") rfl (by decide)
  · exact (C7_per_tender_outcomes (fun _ => some t2Detail) (initState []) "u").2.2.1 t2Detail
      rfl (by decide)
  · exact (C7_per_tender_outcomes (fun _ => some noIdDetail) (initState []) "u").2.2.2.1
      noIdDetail (mkKeepRecord noIdDetail (some 100)) rfl (by decide) rfl
  · exact (C7_per_tender_outcomes (fun _ => some t1Detail) (initState ["T1"]) "u").2.2.2.2.2
      t1Detail (mkKeepRecord t1Detail (some 2500000)) "T1" rfl (by decide) rfl (by decide)
      (by decide)

set_option maxRecDepth 8000 in
/-- C9: the end-to-end scenario: the run succeeds, the dedup log gains only
"T1", the digest shows "Found 2 total tenders" and exactly one reported
fragment (for T1) — but the per-department counter line is spelled
"Fount 1 new tenders for Public Works Department" (source line 376), not
"Found 1 new tenders ..." as the claim states. -/
theorem C9_end_to_end_scenario :
    scenarioRun = .ok scenarioFinal ∧
    scenarioFinal.1.seen = ["T1"] ∧
    scenarioFinal.1.count = 1 ∧
    containsSub scenarioFinal.1.body "Found 2 total tenders" = true ∧
    containsSub scenarioFinal.1.body "Tender ID: T1<br>" = true ∧
    containsSub scenarioFinal.1.body "Tender ID: T2" = false ∧
    countOccur scenarioFinal.1.body "<hr>" = 1 ∧
    containsSub scenarioFinal.1.body "Fount 1 new tenders for Public Works Department" = true ∧
    containsSub scenarioFinal.1.body "Found 1 new tenders for Public Works Department" = false := by
  refine ⟨rfl, by decide, by decide, ?_, ?_, ?_, ?_, ?_, ?_⟩
  · decide
  · decide
  · decide
  · decide
  · decide
  · decide
